import Mathlib

/-!
Verification development for the document-vector-store repository.

The Python core is shallowly embedded: each definition below mirrors one
function of the source (`src/core/VectorService.py`, `src/core/ContextService.py`,
`src/core/RAGService.py`).  External collaborators (the sentence-transformer
embedding model, the faiss index search, the text splitter, the cohere
reranking client, the compressor and the LLMs) are passed in as an
environment of oracle functions, exactly at the call sites where the Python
code calls out to them.  Python exceptions are modelled with `Except PyError`,
Python dictionaries with association lists, and pickled values with the
`Value` type.
-/

/-- Python run-time values as they occur in the store's metadata dictionaries
and content arrays (strings, ints, None, and lists of values). -/
inductive Value where
  | str (s : String)
  | int (n : Int)
  | none
  | list (l : List Value)

mutual

/-- Decidable equality for `Value` (the automatic derivation does not handle
the nested `List Value`). -/
def Value.decEq : (a b : Value) → Decidable (a = b)
  | Value.str x, Value.str y =>
    if h : x = y then isTrue (by rw [h]) else isFalse (by intro hh; injection hh; contradiction)
  | Value.str _, Value.int _ => isFalse (by intro hh; cases hh)
  | Value.str _, Value.none => isFalse (by intro hh; cases hh)
  | Value.str _, Value.list _ => isFalse (by intro hh; cases hh)
  | Value.int _, Value.str _ => isFalse (by intro hh; cases hh)
  | Value.int x, Value.int y =>
    if h : x = y then isTrue (by rw [h]) else isFalse (by intro hh; injection hh; contradiction)
  | Value.int _, Value.none => isFalse (by intro hh; cases hh)
  | Value.int _, Value.list _ => isFalse (by intro hh; cases hh)
  | Value.none, Value.str _ => isFalse (by intro hh; cases hh)
  | Value.none, Value.int _ => isFalse (by intro hh; cases hh)
  | Value.none, Value.none => isTrue rfl
  | Value.none, Value.list _ => isFalse (by intro hh; cases hh)
  | Value.list _, Value.str _ => isFalse (by intro hh; cases hh)
  | Value.list _, Value.int _ => isFalse (by intro hh; cases hh)
  | Value.list _, Value.none => isFalse (by intro hh; cases hh)
  | Value.list x, Value.list y =>
    match Value.decEqList x y with
    | isTrue h => isTrue (by rw [h])
    | isFalse h => isFalse (by intro hh; injection hh; contradiction)

/-- Decidable equality for lists of `Value`. -/
def Value.decEqList : (a b : List Value) → Decidable (a = b)
  | [], [] => isTrue rfl
  | [], _ :: _ => isFalse (by intro hh; cases hh)
  | _ :: _, [] => isFalse (by intro hh; cases hh)
  | x :: xs, y :: ys =>
    match Value.decEq x y, Value.decEqList xs ys with
    | isTrue h1, isTrue h2 => isTrue (by rw [h1, h2])
    | isFalse h1, _ => isFalse (by intro hh; injection hh; contradiction)
    | isTrue _, isFalse h2 => isFalse (by intro hh; injection hh; contradiction)

end

instance : DecidableEq Value := Value.decEq

/-- A Python dictionary with string keys, modelled as an insertion-ordered
association list (as CPython dicts are). -/
abbrev Dict := List (String × Value)

/-- Python exception kinds raised by the embedded code paths. -/
inductive PyError where
  | valueError (msg : String)
  | runtimeError (msg : String)
  | typeError
  | indexError
  | keyError
  deriving DecidableEq

/-- Python `d.get(key)`: the first binding of `key`, or `None` (here `none`). -/
def dictGet (d : Dict) (key : String) : Option Value :=
  match d.find? (fun p => p.1 == key) with
  | some p => some p.2
  | Option.none => Option.none

/-- Python `d[key] = v`: replace the value at `key` in place if present,
otherwise append the binding (CPython insertion-order semantics). -/
def dictSet (d : Dict) (key : String) (v : Value) : Dict :=
  match d with
  | [] => [(key, v)]
  | (k, w) :: rest => if k == key then (k, v) :: rest else (k, w) :: dictSet rest key v

/-- Python list subscription `xs[i]` with an `int` index: non-negative indices
index from the front, negative indices wrap from the end, anything out of
`[-len, len)` raises `IndexError` (modelled by `none`). -/
def pyGet (xs : List α) (i : Int) : Option α :=
  if 0 ≤ i then
    xs.get? i.toNat
  else if -(xs.length : Int) ≤ i then
    xs.get? ((xs.length : Int) + i).toNat
  else
    Option.none

/-- An embedding vector.  The claims under verification never compute with
the numeric entries, so components are modelled as integers. -/
abbrev Vec := List Int

/-- The faiss index state: the dimension it was built with
(`IndexHNSWFlat(embedding_dim, 32, METRIC_INNER_PRODUCT)`) and the stored
vectors; `ntotal` is the length of `vecs`. -/
structure IndexData where
  dim : Nat
  vecs : List Vec
  deriving DecidableEq

/-- The in-memory state of `VectorService`: `self.index`, `self.metadata`,
`self.content` (src/core/VectorService.py lines 35-37). -/
structure State where
  index : IndexData
  metadata : List Dict
  content : List Value
  deriving DecidableEq

/-- A persisted artifact on disk: either readable with a payload, or present
but unreadable (a corrupt pickle / faiss file whose read raises). -/
inductive Artifact (α : Type) where
  | readable (a : α)
  | corrupt
  deriving DecidableEq

/-- The on-disk state: the three artifact files `index.faiss`, `metadata.pkl`,
`content.pkl`; `none` means the file does not exist. -/
structure DiskState where
  indexFile : Option (Artifact IndexData)
  metaFile : Option (Artifact (List Dict))
  contentFile : Option (Artifact (List Value))

/-- A data directory with none of the three artifact files. -/
def emptyDiskState : DiskState := ⟨Option.none, Option.none, Option.none⟩

/-- VectorService._initialise_empty_index (lines 60-62): a fresh HNSW index
of the model's embedding dimension, holding no vectors. -/
def initialiseEmptyIndex (embeddingDim : Nat) : IndexData := ⟨embeddingDim, []⟩

/-- VectorService._load_data (lines 39-57): each artifact is loaded
independently when its file exists; a missing index file is replaced by a
fresh empty index, missing metadata/content files by empty lists; an
unreadable file makes `faiss.read_index` / `pickle.load` raise, which
propagates out of startup. -/
def loadData (embeddingDim : Nat) (d : DiskState) : Except PyError State := do
  let index ← match d.indexFile with
    | some (Artifact.readable ix) => Except.ok ix
    | some Artifact.corrupt => Except.error (PyError.runtimeError "faiss read_index failed")
    | Option.none => Except.ok (initialiseEmptyIndex embeddingDim)
  let metadata ← match d.metaFile with
    | some (Artifact.readable m) => Except.ok m
    | some Artifact.corrupt => Except.error (PyError.runtimeError "pickle load failed")
    | Option.none => Except.ok []
  let content ← match d.contentFile with
    | some (Artifact.readable c) => Except.ok c
    | some Artifact.corrupt => Except.error (PyError.runtimeError "pickle load failed")
    | Option.none => Except.ok []
  Except.ok ⟨index, metadata, content⟩

/-- VectorService._save_data (lines 115-121): writes all three artifacts.
Write order in the source is index, then content, then metadata. -/
def saveData (s : State) : DiskState :=
  ⟨some (Artifact.readable s.index), some (Artifact.readable s.metadata),
   some (Artifact.readable s.content)⟩

/-- The disk state left behind when the process dies after completing only
the first `j` of `_save_data`'s three file writes (order: index, content,
metadata) on top of a previous disk state `d`. -/
def crashDisk (d : DiskState) (s : State) (j : Nat) : DiskState :=
  { indexFile := if 1 ≤ j then some (Artifact.readable s.index) else d.indexFile,
    contentFile := if 2 ≤ j then some (Artifact.readable s.content) else d.contentFile,
    metaFile := if 3 ≤ j then some (Artifact.readable s.metadata) else d.metaFile }

/-- A langchain `Document`: `page_content` plus a metadata dictionary. -/
structure Doc where
  page_content : String
  metadata : Dict
  deriving DecidableEq

/-- A search result as built by `VectorService.search` (lines 143-149): the
dictionary `{"metadata": ..., "similarity": ...}`.  Similarity scores are
opaque to the verified claims and are modelled as integers. -/
structure SRes where
  metadata : Dict
  similarity : Int
  deriving DecidableEq

/-- What `VectorService.search` returns: either the error dictionary
`{"error": ...}` (for an empty index) or the list of result dictionaries. -/
inductive SearchOut where
  | errorDict (msg : String)
  | results (rs : List SRes)
  deriving DecidableEq

/-- The external collaborators, passed as oracle functions: the embedding
model (`encode`, one vector per input string), faiss `normalize_L2` and index
search (rows of `(label, distance)` pairs), the recursive text splitter, the
query rewriter, the cohere rerank response (the `original_index` fields, in
the service's order), the compressor, and the answer LLM. -/
structure Env where
  embed : String → Vec
  normalizeL2 : Vec → Vec
  splitDocuments : List Doc → List Doc
  annSearch : IndexData → Vec → Nat → List (Int × Int)
  rewrite : String → String
  rerankResp : List Value → String → Nat → List Int
  compress : List Doc → String → List Doc
  llm : String → String

/-- VectorService.process_store_pdf (lines 64-113), with the page extraction
of `PdfReader` supplied as `parse` (the list of per-page extracted texts, or
the exception message if opening the pdf raised).  Mirrors the source control
flow: duplicate check on `metadata` first; then the `try` block building
`all_pages` and testing `if not all_pages` — whose `ValueError` is caught by
the enclosing `except` and re-raised as `RuntimeError`; then splitting,
embedding, normalising, and extending index/metadata/content. -/
def processStorePdf (env : Env) (s : State) (filename : String)
    (parse : Except String (List String)) : Except PyError State :=
  if s.metadata.any (fun m =>
      match dictGet m "source" with
      | some (Value.str v) => v == filename
      | _ => false) then
    Except.error (PyError.valueError
      ("file: " ++ filename ++ " is already processed. Try another file"))
  else
    match parse with
    | Except.error e =>
        Except.error (PyError.runtimeError ("Error opening the pdf error:" ++ e))
    | Except.ok pages =>
        let allPages := pages.enum.map (fun p =>
          Doc.mk p.2 [("source", Value.str filename), ("page_number", Value.int (p.1 + 1))])
        if allPages.isEmpty then
          Except.error (PyError.runtimeError
            ("Error opening the pdf error:No text could be extracted from file: " ++ filename))
        else
          let chunks := env.splitDocuments allPages
          let chunkText := chunks.map Doc.page_content
          let chunkMetadata := chunks.map Doc.metadata
          let embeddings := (chunkText.map env.embed).map env.normalizeL2
          Except.ok
            { index := ⟨s.index.dim, s.index.vecs ++ embeddings⟩,
              metadata := s.metadata ++ chunkMetadata,
              content := s.content ++ chunkText.map Value.str }

/-- The join loop of VectorService.search (lines 141-149): for each ann row
`(idx, distance)`, if `idx != -1 and idx < len(metadata)`, look up
`metadata[idx]`, copy it, inject `content[idx]` under the key `"content"`,
and append the result; list subscription follows Python semantics. -/
def searchJoin (meta : List Dict) (content : List Value) :
    List (Int × Int) → Except PyError (List SRes)
  | [] => Except.ok []
  | (idx, dist) :: rest =>
    if idx ≠ -1 ∧ idx < (meta.length : Int) then
      match pyGet meta idx with
      | Option.none => Except.error PyError.indexError
      | some m =>
        match pyGet content idx with
        | Option.none => Except.error PyError.indexError
        | some c =>
          (searchJoin meta content rest).map
            (fun rs => SRes.mk (dictSet m "content" c) dist :: rs)
    else
      searchJoin meta content rest

/-- VectorService.search (lines 123-150): return the `{"error": ...}`
dictionary when `ntotal == 0`; otherwise embed and normalise the query, run
the faiss search, and join the returned rows against metadata/content. -/
def search (env : Env) (s : State) (query : String) (k : Nat) :
    Except PyError SearchOut :=
  if s.index.vecs.length = 0 then
    Except.ok (SearchOut.errorDict "The index is empty please upload a document first")
  else
    let qv := env.normalizeL2 (env.embed query)
    let rows := env.annSearch s.index qv k
    (searchJoin s.metadata s.content rows).map SearchOut.results

/-- The list comprehension `[item['metadata']['content'] for item in chunks_list]`
(ContextService.reRanker line 29, and the debug loops of RAGService.answer):
reads each result's content value, raising `KeyError` when absent. -/
def contentsOf (chunks : List SRes) : Except PyError (List Value) :=
  chunks.mapM (fun c =>
    match dictGet c.metadata "content" with
    | some v => Except.ok v
    | Option.none => Except.error PyError.keyError)

/-- ContextService.reRanker (lines 19-40): collect the content of every
input chunk, send them to the reranking service (whose response — the list of
`original_index` values, already truncated by the service to `top_n = k` — is
the oracle `env.rerankResp`), then rebuild the output by Python-subscripting
the input list at each returned index, in the response's order.  The source
performs no validation of the returned indices. -/
def reRanker (env : Env) (rewrittenQuery : String) (chunksList : List SRes)
    (k : Nat) : Except PyError (List SRes) := do
  let docs ← contentsOf chunksList
  let indices := env.rerankResp docs rewrittenQuery k
  indices.mapM (fun i =>
    match pyGet chunksList i with
    | some c => Except.ok c
    | Option.none => Except.error PyError.indexError)

/-- Python `str(v)` for the values that can reach the stringification branch
of ContextService.chunk_compressor (ints and None; the str and list cases are
handled by the earlier isinstance branches and never reach `str`). -/
def pyStr : Value → String
  | Value.str s => s
  | Value.int n => toString n
  | Value.none => "None"
  | Value.list _ => "[list]"

/-- Python `" ".join(content)` over a list of values: succeeds with the
space-separated concatenation when every element is a string, raises
`TypeError` otherwise. -/
def joinSpace (l : List Value) : Except PyError String :=
  (l.mapM (fun v =>
    match v with
    | Value.str s => Except.ok s
    | _ => Except.error PyError.typeError)).map (String.intercalate " ")

/-- The normalization chain of ContextService.chunk_compressor (lines 56-60):
`if isinstance(content, list): content = " ".join(content)
 elif not isinstance(content, str): content = str(content)`. -/
def normalizeContent : Value → Except PyError String
  | Value.list l => joinSpace l
  | Value.str s => Except.ok s
  | v => Except.ok (pyStr v)

/-- ContextService.chunk_compressor (lines 42-70): normalize every chunk's
content to a plain string, wrap it with the chunk's metadata as a Document,
hand the documents to the compression service, and join the retained
documents' texts with a double line break, in the service's order. -/
def chunk_compressor (env : Env) (chunks : List SRes) (query : String) :
    Except PyError String := do
  let docs ← chunks.mapM (fun chunk => do
    let content ← match dictGet chunk.metadata "content" with
      | some v => Except.ok v
      | Option.none => Except.error PyError.keyError
    let text ← normalizeContent content
    Except.ok (Doc.mk text chunk.metadata))
  let compressed := env.compress docs query
  Except.ok (String.intercalate "\n\n" (compressed.map Doc.page_content))

/-- RAGService.answer (lines 7-58): rewrite the query, retrieve with k = 3,
print every retrieved chunk's content, rerank all retrieved chunks with
top_n = their count, print again, evaluate `type(reranked_chunks[0])`,
compress, and invoke the LLM on the assembled prompt.  When the store is
empty, `search` returns the `{"error": ...}` dictionary and the first print
loop iterates the dictionary's keys, so `chunk['metadata']` subscripts the
string `"error"` and raises `TypeError`; when the reranked list is empty, the
debug statement `reranked_chunks[0]` raises `IndexError`. -/
def answer (env : Env) (s : State) (query : String) : Except PyError String := do
  let rewritten := env.rewrite query
  let retrieved ← search env s rewritten 3
  match retrieved with
  | SearchOut.errorDict _ => Except.error PyError.typeError
  | SearchOut.results chunks => do
    let _ ← contentsOf chunks
    let reranked ← reRanker env rewritten chunks chunks.length
    let _ ← contentsOf reranked
    match pyGet reranked 0 with
    | Option.none => Except.error PyError.indexError
    | some _ => do
      let context ← chunk_compressor env reranked rewritten
      Except.ok (env.llm
        ("\nUse the context below to answer the user query.\n\nContext:\n"
          ++ context ++ "\n\nQuestion:\n" ++ rewritten ++ "\n"))

/-- A heap of Python dictionary objects; an address is an index into the
list, and `.copy()` allocates at the end. -/
abbrev Heap := List Dict

/-- Mutating the dictionary object at address `r` of the heap (what a caller
does when it writes a key of a returned result's metadata map). -/
def heapSet (h : Heap) (r : Nat) (d : Dict) : Heap := h.set r d

/-- The join loop of VectorService.search at the level of Python object
identity: the store's metadata array holds references `metaRefs` into the
heap; for each kept row the loop calls `self.metadata[idx].copy()` — which
allocates a fresh dictionary at the end of the heap — injects the content
under `"content"` into the copy, and returns the fresh reference together
with the row's score.  Negative indices follow Python subscription. -/
def heapSearchJoin (h : Heap) (metaRefs : List Nat) (content : List Value) :
    List (Int × Int) → Heap × List (Nat × Int)
  | [] => (h, [])
  | (idx, dist) :: rest =>
    if idx ≠ -1 ∧ idx < (metaRefs.length : Int) then
      let pos := (if idx < 0 then (metaRefs.length : Int) + idx else idx).toNat
      let copied := dictSet (h.getD (metaRefs.getD pos 0) []) "content"
        (content.getD pos Value.none)
      let tailRes := heapSearchJoin (h ++ [copied]) metaRefs content rest
      (tailRes.1, (h.length, dist) :: tailRes.2)
    else
      heapSearchJoin h metaRefs content rest

/-- The alignment invariant of the spec: the vector count of the index, the
metadata array length and the content array length agree. -/
def storeAligned (s : State) : Prop :=
  s.index.vecs.length = s.metadata.length ∧ s.metadata.length = s.content.length

/-- The store states reachable by crash-free runs of the service: the state
produced by `__init__` on an empty data directory, states after a successful
`process_store_pdf` (which ends in a completed `_save_data`), and states
produced by restarting on the artifacts of a completed save. -/
inductive ReachState (env : Env) (dim : Nat) : State → Prop
  | load0 (s : State) : loadData dim emptyDiskState = Except.ok s → ReachState env dim s
  | ingest (s s' : State) (f : String) (p : Except String (List String)) :
      ReachState env dim s → processStorePdf env s f p = Except.ok s' →
      ReachState env dim s'
  | reload (s s' : State) :
      ReachState env dim s → loadData dim (saveData s) = Except.ok s' →
      ReachState env dim s'

/-- A concrete environment used to evaluate the embedded code on small
inputs: a fixed two-dimensional embedding, the identity normalization, a
splitter that (like the recursive character splitter) drops pages with no
text and otherwise yields one chunk per page, and trivial services. -/
def env1 : Env :=
  { embed := fun _ => [1, 0],
    normalizeL2 := fun v => v,
    splitDocuments := fun docs => docs.filter (fun d => !(d.page_content == "")),
    annSearch := fun _ _ _ => [],
    rewrite := fun q => q,
    rerankResp := fun _ _ _ => [],
    compress := fun docs _ => docs,
    llm := fun _ => "final answer" }

/-- The empty in-memory store with the model's embedding dimension. -/
def emptyState (dim : Nat) : State := ⟨initialiseEmptyIndex dim, [], []⟩

/-- The store after ingesting a one-page document "a.pdf" whose page text is
"hello", under `env1`. -/
def s1 : State :=
  ⟨⟨384, [[1, 0]]⟩,
   [[("source", Value.str "a.pdf"), ("page_number", Value.int 1)]],
   [Value.str "hello"]⟩

/-- Python subscription with a non-negative in-bounds index returns the
element at that position. -/
theorem pyGet_of_nonneg {α} (xs : List α) (i : Int) (d : α) (h0 : 0 ≤ i)
    (hlt : i.toNat < xs.length) : pyGet xs i = some (xs.getD i.toNat d) := by
  unfold pyGet
  rw [if_pos h0, List.get?_eq_getElem?, List.getD_eq_getElem?_getD,
    List.getElem?_eq_getElem hlt]
  simp [List.getElem?_eq_getElem hlt]

/-- Python subscription with a negative index not below `-len` wraps from
the end of the list. -/
theorem pyGet_of_neg {α} (xs : List α) (i : Int) (d : α) (hneg : i < 0)
    (hge : -(xs.length : Int) ≤ i) :
    pyGet xs i = some (xs.getD ((xs.length : Int) + i).toNat d) := by
  have hlt : ((xs.length : Int) + i).toNat < xs.length := by omega
  unfold pyGet
  rw [if_neg (by omega), if_pos hge, List.get?_eq_getElem?,
    List.getD_eq_getElem?_getD, List.getElem?_eq_getElem hlt]
  simp [List.getElem?_eq_getElem hlt]

/-- An index inside the Python-valid window `[-len, len)` never raises. -/
theorem pyGet_isSome {α} (xs : List α) (i : Int) (h1 : -(xs.length : Int) ≤ i)
    (h2 : i < (xs.length : Int)) : (pyGet xs i).isSome := by
  unfold pyGet
  by_cases h0 : 0 ≤ i
  · rw [if_pos h0, List.get?_eq_getElem?, List.getElem?_eq_getElem (by omega)]
    rfl
  · rw [if_neg h0, if_pos h1, List.get?_eq_getElem?, List.getElem?_eq_getElem (by omega)]
    rfl

/-- A successful `process_store_pdf` extends the index vectors, the metadata
array and the content array by one entry per produced chunk, so it preserves
the alignment of their lengths. -/
theorem processStorePdf_preserves_aligned (env : Env) (s : State) (f : String)
    (p : Except String (List String)) (s' : State)
    (h : processStorePdf env s f p = Except.ok s') (ha : storeAligned s) :
    storeAligned s' := by
  obtain ⟨ha1, ha2⟩ := ha
  simp only [processStorePdf] at h
  split at h
  · simp at h
  · split at h
    · simp at h
    · split at h
      · simp at h
      · injection h with h
        subst h
        refine ⟨?_, ?_⟩ <;> simp <;> omega

/-- C1 counterexample: the invariant does not survive loading partially
persisted artifacts.  Starting from an empty data directory, a successful
ingest of a one-page document reaches state `s1`; if the process dies during
`_save_data` after writing only `index.faiss` (the first of the three write
calls), the next startup load succeeds and yields a state whose index holds
one vector while the metadata and content arrays are empty — the three
counts are not all equal. -/
theorem c1_counterexample :
    processStorePdf env1 (emptyState 384) "a.pdf" (Except.ok ["hello"]) = Except.ok s1 ∧
    loadData 384 (crashDisk emptyDiskState s1 1) = Except.ok ⟨⟨384, [[1, 0]]⟩, [], []⟩ ∧
    ¬ storeAligned ⟨⟨384, [[1, 0]]⟩, [], []⟩ :=
  ⟨rfl, rfl, by simp [storeAligned]⟩

/-- C1 (amended): in every state reachable without a crash — after
initialization from an empty data directory, after every successful ingest,
and after loading artifacts written by a completed save — the number of
vectors in the index, the length of the metadata array and the length of the
content array are all equal.  (Artifacts left by a crash mid-save can load
into a misaligned state, as the counterexample shows.) -/
theorem c1_alignment_invariant (env : Env) (dim : Nat) (s : State)
    (h : ReachState env dim s) : storeAligned s := by
  induction h with
  | load0 s hl =>
    have he : loadData dim emptyDiskState = Except.ok (emptyState dim) := rfl
    rw [he] at hl
    injection hl with hl
    subst hl
    exact ⟨rfl, rfl⟩
  | ingest s s' f p hr hp ih =>
    exact processStorePdf_preserves_aligned env s f p s' hp ih
  | reload s s' hr hl ih =>
    have he : loadData dim (saveData s) = Except.ok s := rfl
    rw [he] at hl
    injection hl with hl
    subst hl
    exact ih

/-- Witness for C1 (amended): the state after initializing on an empty data
directory and ingesting one document is reachable and aligned. -/
theorem c1_alignment_invariant_witness : storeAligned s1 :=
  c1_alignment_invariant env1 384 s1
    (ReachState.ingest (emptyState 384) s1 "a.pdf" (Except.ok ["hello"])
      (ReachState.load0 (emptyState 384) rfl) rfl)

/-- A disk state whose index artifact is present (with a dimension different
from the embedding model's 384) while the metadata and content artifacts are
missing. -/
def c4Disk : DiskState :=
  ⟨some (Artifact.readable ⟨5, [[1]]⟩), Option.none, Option.none⟩

/-- C4 counterexample: loading artifacts that are only partially present and
dimension-mismatched does not fail — `_load_data` accepts the lone index
file (even though its dimension 5 differs from the model's 384) and silently
substitutes empty arrays for the missing metadata and content artifacts. -/
theorem c4_counterexample :
    loadData 384 c4Disk = Except.ok ⟨⟨5, [[1]]⟩, [], []⟩ ∧
    c4Disk.metaFile = Option.none ∧ c4Disk.contentFile = Option.none ∧
    (5 : Nat) ≠ 384 :=
  ⟨rfl, rfl, rfl, by decide⟩

/-- C4 (amended): startup load fails if and only if some present artifact is
unreadable (the underlying read error propagates; there is no dedicated
CorruptStateError).  Missing artifacts are each replaced independently — a
missing index by a fresh empty index, missing metadata/content by empty
arrays — and no dimension or cross-artifact consistency check is performed,
so partial-artifact and dimension-mismatched states load without error. -/
theorem c4_load_failure_iff (dim : Nat) (d : DiskState) :
    (∃ e, loadData dim d = Except.error e) ↔
      (d.indexFile = some Artifact.corrupt ∨ d.metaFile = some Artifact.corrupt ∨
        d.contentFile = some Artifact.corrupt) := by
  obtain ⟨ix, mf, cf⟩ := d
  rcases ix with _ | (ix | _) <;> rcases mf with _ | (mf | _) <;> rcases cf with _ | (cf | _) <;>
    simp [loadData, initialiseEmptyIndex, Bind.bind, Except.bind]

/-- C5: ingesting a source id that is already present in the store's
metadata fails immediately with the duplicate-document ValueError — before
any parsing work, so the outcome is the same whatever the parser would have
returned — and, the check being the first statement of the method, the
in-memory and on-disk state of the store are left untouched. -/
theorem c5_duplicate_reject (env : Env) (s : State) (f : String)
    (p p' : Except String (List String))
    (h : (s.metadata.any (fun m =>
      match dictGet m "source" with
      | some (Value.str v) => v == f
      | _ => false)) = true) :
    processStorePdf env s f p =
      Except.error (PyError.valueError
        ("file: " ++ f ++ " is already processed. Try another file")) ∧
    processStorePdf env s f p = processStorePdf env s f p' := by
  constructor <;> simp only [processStorePdf, h, if_true]

/-- Witness for C5: after the successful ingest of "a.pdf" (recorded in
`s1`), re-ingesting "a.pdf" yields the duplicate error regardless of what
the parser would produce. -/
theorem c5_duplicate_reject_witness :
    processStorePdf env1 s1 "a.pdf" (Except.ok ["x"]) =
      Except.error (PyError.valueError
        ("file: " ++ "a.pdf" ++ " is already processed. Try another file")) ∧
    processStorePdf env1 s1 "a.pdf" (Except.ok ["x"]) =
      processStorePdf env1 s1 "a.pdf" (Except.error "could not open") :=
  c5_duplicate_reject env1 s1 "a.pdf" (Except.ok ["x"]) (Except.error "could not open")
    (by decide)

/-- C6: searching an empty index returns the explicit error dictionary, a
value distinct from every successful (even empty) result list, and does so
for every environment — in particular without consulting the ann index. -/
theorem c6_empty_index_error (env : Env) (s : State) (q : String) (k : Nat)
    (h0 : s.index.vecs.length = 0) (_hk : 1 ≤ k) :
    search env s q k =
      Except.ok (SearchOut.errorDict "The index is empty please upload a document first") ∧
    ∀ rs : List SRes, search env s q k ≠ Except.ok (SearchOut.results rs) := by
  unfold search
  rw [if_pos h0]
  refine ⟨rfl, fun rs hh => ?_⟩
  injection hh with hh
  cases hh

/-- Witness for C6: the scenario of the spec — an empty store searched with
"anything" and k = 3 produces the index-empty signal, not an empty list. -/
theorem c6_empty_index_error_witness :
    search env1 (emptyState 384) "anything" 3 =
      Except.ok (SearchOut.errorDict "The index is empty please upload a document first") ∧
    ∀ rs : List SRes,
      search env1 (emptyState 384) "anything" 3 ≠ Except.ok (SearchOut.results rs) :=
  c6_empty_index_error env1 (emptyState 384) "anything" 3 rfl (by decide)

/-- The join loop of `search`, characterised: when the ann labels all come
from the faiss contract (each is -1 or a valid non-negative id) and the
content array is at least as long as the metadata array, the loop never
raises, keeps exactly the rows whose label is a non-negative position inside
the metadata array, and emits them in the ann row order, each joined to a
copy of its metadata with the content injected under "content". -/
theorem searchJoin_eq (meta : List Dict) (content : List Value)
    (rows : List (Int × Int)) (hal : meta.length ≤ content.length)
    (h : ∀ p ∈ rows, -1 ≤ p.1) :
    searchJoin meta content rows = Except.ok (rows.filterMap (fun p =>
      if 0 ≤ p.1 ∧ p.1 < (meta.length : Int) then
        some (SRes.mk
          (dictSet (meta.getD p.1.toNat []) "content" (content.getD p.1.toNat Value.none))
          p.2)
      else Option.none)) := by
  induction rows with
  | nil => rfl
  | cons hd tl ih =>
    obtain ⟨idx, dist⟩ := hd
    have hhd : -1 ≤ idx := h (idx, dist) (List.mem_cons_self _ _)
    have htl : ∀ p ∈ tl, -1 ≤ p.1 := fun p hp => h p (List.mem_cons_of_mem _ hp)
    by_cases hcond : idx ≠ -1 ∧ idx < (meta.length : Int)
    · have h0 : 0 ≤ idx := by omega
      have hlt : idx.toNat < meta.length := by omega
      have hltc : idx.toNat < content.length := by omega
      unfold searchJoin
      rw [if_pos hcond, pyGet_of_nonneg meta idx [] h0 hlt,
        pyGet_of_nonneg content idx Value.none h0 hltc, ih htl,
        List.filterMap_cons]
      rw [if_pos (by exact ⟨h0, hcond.2⟩)]
      rfl
    · unfold searchJoin
      rw [if_neg hcond, List.filterMap_cons,
        if_neg (by omega), ih htl]

/-- C7: over a non-empty index, with the faiss contract that every returned
label is -1 (no match) or a valid non-negative id, and content at least as
long as metadata (alignment), `search` succeeds and returns exactly the ann
rows whose label is not the sentinel and lies inside the metadata array —
in ann order, not re-sorted — each joined to its stored metadata with the
content entry injected under the "content" key and the reported score. -/
theorem c7_search_join (env : Env) (s : State) (q : String) (k : Nat)
    (hne : ¬ s.index.vecs.length = 0)
    (hal : s.metadata.length ≤ s.content.length)
    (hann : ∀ p ∈ env.annSearch s.index (env.normalizeL2 (env.embed q)) k, -1 ≤ p.1) :
    search env s q k = Except.ok (SearchOut.results
      ((env.annSearch s.index (env.normalizeL2 (env.embed q)) k).filterMap (fun p =>
        if 0 ≤ p.1 ∧ p.1 < (s.metadata.length : Int) then
          some (SRes.mk
            (dictSet (s.metadata.getD p.1.toNat []) "content"
              (s.content.getD p.1.toNat Value.none))
            p.2)
        else Option.none))) := by
  simp only [search]
  rw [if_neg hne, searchJoin_eq s.metadata s.content _ hal hann]
  rfl

/-- Metadata dictionaries of a two-chunk store used to exercise `search`. -/
def m0 : Dict := [("source", Value.str "b.pdf"), ("page_number", Value.int 1)]

/-- Second metadata dictionary of the two-chunk store. -/
def m1 : Dict := [("source", Value.str "b.pdf"), ("page_number", Value.int 2)]

/-- A store holding exactly two chunks. -/
def s2 : State := ⟨⟨384, [[1, 0], [0, 1]]⟩, [m0, m1], [Value.str "c0", Value.str "c1"]⟩

/-- An environment whose ann search returns labels 1, the -1 sentinel, the
out-of-bounds label 7, and 0, with descending scores. -/
def env7 : Env := { env1 with annSearch := fun _ _ _ => [(1, 9), (-1, 5), (7, 3), (0, 2)] }

/-- Witness for C7: the sentinel row and the out-of-bounds row are skipped,
the two valid rows come back in ann order with content injected. -/
theorem c7_search_join_witness :
    search env7 s2 "q" 4 = Except.ok (SearchOut.results
      [SRes.mk [("source", Value.str "b.pdf"), ("page_number", Value.int 2),
        ("content", Value.str "c1")] 9,
       SRes.mk [("source", Value.str "b.pdf"), ("page_number", Value.int 1),
        ("content", Value.str "c0")] 2]) := by
  have hth := c7_search_join env7 s2 "q" 4 (by decide) (by decide)
    (by intro p hp
        simp only [env7, env1, List.mem_cons, List.not_mem_nil, or_false] at hp
        rcases hp with rfl | rfl | rfl | rfl <;> decide)
  rw [hth]
  rfl

/-- A search result whose metadata carries content "c0". -/
def r0 : SRes := ⟨[("content", Value.str "c0")], 0⟩

/-- A search result whose metadata carries content "c1". -/
def r1 : SRes := ⟨[("content", Value.str "c1")], 0⟩

/-- An environment whose reranking service replies with the out-of-range
original index -1. -/
def envNeg : Env := { env1 with rerankResp := fun _ _ _ => [-1] }

/-- An environment whose reranking service replies with the duplicated
original index 0. -/
def envDup : Env := { env1 with rerankResp := fun _ _ _ => [0, 0] }

/-- C2 counterexample: the code performs no validation of the indices the
reranking service returns.  On a two-element input, a response containing
the index -1 — outside [0, 2) — is silently applied (Python subscription
wraps it to the last element), and a response [0, 0] duplicates a position,
so the output is not a permutation of a subset of the input. -/
theorem c2_counterexample :
    reRanker envNeg "q" [r0, r1] 2 = Except.ok [r1] ∧
    reRanker envDup "q" [r0, r1] 2 = Except.ok [r0, r0] :=
  ⟨rfl, rfl⟩

/-- When every chunk's metadata has a "content" binding, the content
comprehension succeeds and returns the content values in order. -/
theorem contentsOf_ok (chunks : List SRes)
    (h : ∀ c ∈ chunks, (dictGet c.metadata "content").isSome) :
    contentsOf chunks =
      Except.ok (chunks.map (fun c => (dictGet c.metadata "content").getD Value.none)) := by
  induction chunks with
  | nil => rfl
  | cons c cs ih =>
    obtain ⟨v, hv⟩ := Option.isSome_iff_exists.mp (h c (List.mem_cons_self _ _))
    have ihh := ih (fun x hx => h x (List.mem_cons_of_mem _ hx))
    unfold contentsOf at ihh ⊢
    rw [List.mapM_cons, hv, ihh]
    simp [hv, Bind.bind, Except.bind, Pure.pure, Except.pure]

/-- When every index of the response subscripts the chunk list without
raising, the rebuild loop of `reRanker` succeeds and returns exactly the
subscripted chunks in response order. -/
theorem mapM_pyGet_ok (chunks : List SRes) (idxs : List Int)
    (h : ∀ i ∈ idxs, (pyGet chunks i).isSome) :
    (idxs.mapM (fun i =>
      match pyGet chunks i with
      | some c => Except.ok (ε := PyError) c
      | Option.none => Except.error PyError.indexError)) =
      Except.ok (idxs.filterMap (fun i => pyGet chunks i)) := by
  induction idxs with
  | nil => rfl
  | cons i is ih =>
    obtain ⟨c, hc⟩ := Option.isSome_iff_exists.mp (h i (List.mem_cons_self _ _))
    rw [List.mapM_cons, hc, ih (fun j hj => h j (List.mem_cons_of_mem _ hj)),
      List.filterMap_cons, hc]
    simp [Bind.bind, Except.bind, Pure.pure, Except.pure]

/-- A filterMap by an everywhere-defined partial function keeps the length. -/
theorem filterMap_length_of_isSome {α β : Type} (f : α → Option β) (l : List α)
    (h : ∀ a ∈ l, (f a).isSome) : (l.filterMap f).length = l.length := by
  induction l with
  | nil => rfl
  | cons a as ih =>
    obtain ⟨b, hb⟩ := Option.isSome_iff_exists.mp (h a (List.mem_cons_self _ _))
    rw [List.filterMap_cons, hb]
    simp [ih (fun x hx => h x (List.mem_cons_of_mem _ hx))]

/-- C2 (amended): `reRanker` applies the reranking service's returned
indices to the input list with plain Python subscription and no validation.
Whenever every returned index lies in the Python-valid window [-N, N) (with
negative values wrapping from the end), the call succeeds and returns the
chunks selected by the response, one per response entry and in response
order — duplicates included, and without any restriction to [0, N); an
index outside [-N, N) raises IndexError instead of being rejected
gracefully.  Truncation to top_n happens only inside the service. -/
theorem c2_rerank_no_validation (env : Env) (q : String) (chunks : List SRes) (k : Nat)
    (hcontent : ∀ c ∈ chunks, (dictGet c.metadata "content").isSome)
    (hrange : ∀ docs i, i ∈ env.rerankResp docs q k →
      -(chunks.length : Int) ≤ i ∧ i < (chunks.length : Int)) :
    ∃ docs, contentsOf chunks = Except.ok docs ∧
      reRanker env q chunks k =
        Except.ok ((env.rerankResp docs q k).filterMap (fun i => pyGet chunks i)) ∧
      ((env.rerankResp docs q k).filterMap (fun i => pyGet chunks i)).length =
        (env.rerankResp docs q k).length := by
  refine ⟨_, contentsOf_ok chunks hcontent, ?_, ?_⟩
  · unfold reRanker
    rw [contentsOf_ok chunks hcontent]
    simp only [Bind.bind, Except.bind]
    exact mapM_pyGet_ok chunks _
      (fun i hi => pyGet_isSome chunks i (hrange _ i hi).1 (hrange _ i hi).2)
  · exact filterMap_length_of_isSome _ _
      (fun i hi => pyGet_isSome chunks i (hrange _ i hi).1 (hrange _ i hi).2)

/-- An environment whose reranking service replies with the in-window
indices 1, -2 and 0 (the -2 wraps to position 0, and 0 repeats it). -/
def envW2 : Env := { env1 with rerankResp := fun _ _ _ => [1, -2, 0] }

/-- Witness for C2 (amended): on the two-chunk input, the response
[1, -2, 0] is applied verbatim — position 1, then position 0 twice. -/
theorem c2_rerank_no_validation_witness :
    reRanker envW2 "q" [r0, r1] 3 = Except.ok [r1, r0, r0] := by
  obtain ⟨docs, h1, h2, h3⟩ := c2_rerank_no_validation envW2 "q" [r0, r1] 3
    (by decide)
    (by intro docs i hi
        simp only [envW2, env1, List.mem_cons, List.not_mem_nil, or_false] at hi
        rcases hi with rfl | rfl | rfl <;> exact ⟨by decide, by decide⟩)
  rw [h2]
  rfl

/-- C3 evaluation at the failing input: a document whose single page
extracts to the empty string — i.e. whose parse yields zero NON-EMPTY page
texts — passes the `if not all_pages` check (the list of pages is not
empty), raises no empty-document error, and proceeds to chunking and a
rewrite of the persisted artifacts (the real splitter yields zero chunks
from empty pages, so the ingest "succeeds" vacuously).  Only a document
with zero pages altogether trips the check, and even then the ValueError is
re-raised by the enclosing except clause as a RuntimeError, contrary to the
method's own docstring. -/
theorem c3_empty_pages_not_rejected :
    processStorePdf env1 (emptyState 384) "f.pdf" (Except.ok [""]) =
      Except.ok (emptyState 384) ∧
    processStorePdf env1 (emptyState 384) "g.pdf" (Except.ok []) =
      Except.error (PyError.runtimeError
        "Error opening the pdf error:No text could be extracted from file: g.pdf") :=
  ⟨rfl, rfl⟩

/-- Mapping a list of fallible computations that all succeed yields the list
of their results, in order. -/
theorem mapM_eq_ok_map {α β : Type} (f : α → Except PyError β) (g : α → β)
    (l : List α) (h : ∀ x ∈ l, f x = Except.ok (g x)) :
    l.mapM f = Except.ok (l.map g) := by
  induction l with
  | nil => rfl
  | cons x xs ih =>
    rw [List.mapM_cons, h x (List.mem_cons_self _ _),
      ih (fun y hy => h y (List.mem_cons_of_mem _ hy))]
    simp [Bind.bind, Except.bind, Pure.pure, Except.pure]

/-- The normalized text of a content value, as the spec words it: a string
stays itself, a list of fragments is joined into a single string, any other
value is stringified.  (On a list with a non-string member the embedded code
raises TypeError; `contentOk` excludes that case, so the placeholder used
for such members here is never reached in the theorems.) -/
def normalizeContentSpec : Value → String
  | Value.str s => s
  | Value.list l => String.intercalate " " (l.map (fun v =>
      match v with
      | Value.str s => s
      | _ => ""))
  | v => pyStr v

/-- Content values the compression path accepts without raising: anything
except a list containing a non-string member. -/
def contentOk : Value → Prop
  | Value.list l => ∀ x ∈ l, ∃ s, x = Value.str s
  | _ => True

/-- The document handed to the compression service for a chunk: normalized
content text plus the chunk's metadata. -/
def normChunkDoc (c : SRes) : Doc :=
  Doc.mk (normalizeContentSpec ((dictGet c.metadata "content").getD Value.none)) c.metadata

/-- On accepted content values the embedded normalization chain agrees with
the spec-side normalizer and never raises. -/
theorem normalizeContent_ok (v : Value) (h : contentOk v) :
    normalizeContent v = Except.ok (normalizeContentSpec v) := by
  cases v with
  | str s => rfl
  | int n => rfl
  | none => rfl
  | list l =>
    show joinSpace l = _
    unfold joinSpace
    rw [mapM_eq_ok_map _ (fun v =>
      match v with
      | Value.str s => s
      | _ => "") l (fun x hx => by
        obtain ⟨s, rfl⟩ := h x hx
        rfl)]
    rfl

/-- C8: on every input whose chunks carry a content value (of any accepted
shape), `chunk_compressor` normalizes each chunk's content to a plain string
— a list of fragments becomes one joined string, a non-string scalar is
stringified — wraps each with its metadata, hands exactly those normalized
documents to the compression service, and returns the retained outputs
concatenated with a double line break, in the service's (encounter) order. -/
theorem c8_compressor_normalizes (env : Env) (chunks : List SRes) (q : String)
    (h : ∀ c ∈ chunks, ∃ v, dictGet c.metadata "content" = some v ∧ contentOk v) :
    chunk_compressor env chunks q =
      Except.ok (String.intercalate "\n\n"
        ((env.compress (chunks.map normChunkDoc) q).map Doc.page_content)) := by
  unfold chunk_compressor
  rw [mapM_eq_ok_map _ normChunkDoc chunks (fun c hc => by
    obtain ⟨v, hv, hok⟩ := h c hc
    simp [hv, normalizeContent_ok v hok, normChunkDoc,
      Bind.bind, Except.bind, Pure.pure, Except.pure])]
  simp [Bind.bind, Except.bind]

/-- A chunk whose content is a list of two string fragments. -/
def c8a : SRes := ⟨[("content", Value.list [Value.str "x", Value.str "y"])], 0⟩

/-- A chunk whose content is the integer 5. -/
def c8b : SRes := ⟨[("content", Value.int 5)], 0⟩

/-- A chunk whose content is already a plain string. -/
def c8c : SRes := ⟨[("content", Value.str "z")], 0⟩

/-- Witness for C8: the fragment list is joined to "x y", the integer is
stringified to "5", the string passes through, and the three contributions
are separated by double line breaks in encounter order. -/
theorem c8_compressor_normalizes_witness :
    chunk_compressor env1 [c8a, c8b, c8c] "q" = Except.ok "x y\n\n5\n\nz" := by
  have hth := c8_compressor_normalizes env1 [c8a, c8b, c8c] "q" (by
    intro c hc
    simp only [List.mem_cons, List.not_mem_nil, or_false] at hc
    rcases hc with rfl | rfl | rfl
    · refine ⟨Value.list [Value.str "x", Value.str "y"], rfl, ?_⟩
      intro x hx
      simp only [List.mem_cons, List.not_mem_nil, or_false] at hx
      rcases hx with rfl | rfl
      exacts [⟨"x", rfl⟩, ⟨"y", rfl⟩]
    · exact ⟨Value.int 5, rfl, trivial⟩
    · exact ⟨Value.str "z", rfl, trivial⟩)
  rw [hth]
  rfl

/-- C9 counterexample: with the store empty, `answer` does not surface the
index-empty signal — `search` returns the `{"error": ...}` dictionary, the
debug loop iterates its keys as if it were the chunk list, and subscripting
the string "error" raises an uncaught TypeError.  With one document indexed
but the ann search returning no rows, the debug statement
`print(type(reranked_chunks[0]))` raises an uncaught IndexError instead of
proceeding with an empty context. -/
theorem c9_counterexample :
    answer env1 (emptyState 384) "q" = Except.error PyError.typeError ∧
    answer env1 s1 "q" = Except.error PyError.indexError :=
  ⟨rfl, rfl⟩

/-- C9 (amended): when retrieval signals the index-empty error, `answer`
crashes with a TypeError (it iterates the error dictionary as though it were
the result list); when retrieval succeeds with zero results (and the
reranking service answers an empty query set with no indices), `answer`
crashes with an IndexError at the `reranked_chunks[0]` debug statement.
Neither path yields a clear per-stage signal, a "nothing indexed" answer, or
an empty-context continuation. -/
theorem c9_answer_crashes (env : Env) (s : State) (q : String) :
    (s.index.vecs.length = 0 → answer env s q = Except.error PyError.typeError) ∧
    (¬ s.index.vecs.length = 0 →
      env.annSearch s.index (env.normalizeL2 (env.embed (env.rewrite q))) 3 = [] →
      env.rerankResp [] (env.rewrite q) 0 = [] →
      answer env s q = Except.error PyError.indexError) := by
  constructor
  · intro h0
    have hs : search env s (env.rewrite q) 3 =
        Except.ok (SearchOut.errorDict "The index is empty please upload a document first") := by
      unfold search
      rw [if_pos h0]
    simp only [answer, hs, Bind.bind, Except.bind]
  · intro hne hann hresp
    have hs : search env s (env.rewrite q) 3 = Except.ok (SearchOut.results []) := by
      simp only [search]
      rw [if_neg hne, hann]
      rfl
    simp only [answer, hs, Bind.bind, Except.bind]
    simp [contentsOf, reRanker, hresp, pyGet, Bind.bind, Except.bind,
      Pure.pure, Except.pure, List.mapM.loop]

/-- A one-chunk store used to exercise the zero-retrieval path of `answer`. -/
def sW9 : State := ⟨⟨2, [[5, 5]]⟩, [[("content", Value.str "w")]], [Value.str "w"]⟩

/-- Witness for C9 (amended): both crash paths realized on concrete stores —
the empty store gives the TypeError path, the one-chunk store whose ann
search returns no rows gives the IndexError path. -/
theorem c9_answer_crashes_witness :
    answer env1 (emptyState 2) "q" = Except.error PyError.typeError ∧
    answer env1 sW9 "q" = Except.error PyError.indexError :=
  ⟨(c9_answer_crashes env1 (emptyState 2) "q").1 rfl,
   (c9_answer_crashes env1 sW9 "q").2 (by decide) rfl rfl⟩

/-- C10: the join loop of `search` is frame-safe and mutation-safe at the
level of Python object identity.  First, it never modifies any pre-existing
heap object — in particular the dictionaries referenced by the store's
metadata array are unchanged (and the value-level `search` returns no new
store state at all: index, metadata and content are not written).  Second,
every returned result holds a reference to a freshly allocated copy, so
overwriting a returned result's dictionary (of which mutating its injected
"content" field is a special case) leaves every pre-existing heap object,
hence all stored metadata, untouched. -/
theorem c10_search_copy_safe (h : Heap) (metaRefs : List Nat) (content : List Value)
    (rows : List (Int × Int)) :
    (∀ r : Nat, r < h.length →
      ((heapSearchJoin h metaRefs content rows).1)[r]? = h[r]?) ∧
    (∀ pr ∈ (heapSearchJoin h metaRefs content rows).2, h.length ≤ pr.1) ∧
    (∀ pr ∈ (heapSearchJoin h metaRefs content rows).2, ∀ d : Dict, ∀ r : Nat,
      r < h.length →
      (heapSet (heapSearchJoin h metaRefs content rows).1 pr.1 d)[r]? = h[r]?) := by
  induction rows generalizing h with
  | nil =>
    exact ⟨fun r hr => rfl, fun pr hpr => absurd hpr (List.not_mem_nil _),
      fun pr hpr => absurd hpr (List.not_mem_nil _)⟩
  | cons hd tl ih =>
    obtain ⟨idx, dist⟩ := hd
    by_cases hc : idx ≠ -1 ∧ idx < (metaRefs.length : Int)
    · simp only [heapSearchJoin, if_pos hc]
      set cd : Dict :=
        dictSet (h.getD (metaRefs.getD (if idx < 0 then (metaRefs.length : Int) + idx else idx).toNat 0) [])
          "content" (content.getD (if idx < 0 then (metaRefs.length : Int) + idx else idx).toNat Value.none)
        with hcd
      obtain ⟨ih1, ih2, ih3⟩ := ih (h ++ [cd])
      have key1 : ∀ r : Nat, r < h.length →
          ((heapSearchJoin (h ++ [cd]) metaRefs content tl).1)[r]? = h[r]? := by
        intro r hr
        rw [ih1 r (by simp only [List.length_append, List.length_cons, List.length_nil]; omega)]
        exact List.getElem?_append_left hr
      have key2 : ∀ pr ∈ (h.length, dist) :: (heapSearchJoin (h ++ [cd]) metaRefs content tl).2,
          h.length ≤ pr.1 := by
        intro pr hpr
        rcases List.mem_cons.mp hpr with rfl | hpr
        · exact le_refl _
        · have h2 := ih2 pr hpr
          simp only [List.length_append, List.length_cons, List.length_nil] at h2
          omega
      refine ⟨key1, key2, ?_⟩
      intro pr hpr d r hr
      have hne : pr.1 ≠ r := by
        have := key2 pr hpr
        omega
      show (((heapSearchJoin (h ++ [cd]) metaRefs content tl).1).set pr.1 d)[r]? = h[r]?
      rw [List.getElem?_set_ne hne]
      exact key1 r hr
    · simp only [heapSearchJoin, if_neg hc]
      exact ih h

/-- Witness for C10: on a one-object heap, joining the single row keeps the
stored dictionary at address 0 intact, and overwriting the freshly returned
copy (allocated at address 1) still leaves address 0 intact. -/
theorem c10_search_copy_safe_witness :
    ((heapSearchJoin [[("source", Value.str "a")]] [0] [Value.str "c"] [(0, 4)]).1)[0]? =
      ([[("source", Value.str "a")]] : Heap)[0]? ∧
    (heapSet (heapSearchJoin [[("source", Value.str "a")]] [0] [Value.str "c"] [(0, 4)]).1
      1 [])[0]? = ([[("source", Value.str "a")]] : Heap)[0]? := by
  have hth := c10_search_copy_safe [[("source", Value.str "a")]] [0] [Value.str "c"] [(0, 4)]
  exact ⟨hth.1 0 (by decide), hth.2.2 (1, 4) (by decide) [] 0 (by decide)⟩
